import Mathlib

/-!
# FinanceGPT parsing core — formal model and verification

The repository's documentation (README, FINANCEGPT_SETUP, RUN_FINANCEGPT,
PDF_SUPPORT.md) describes a financial-statement parsing core
(`app/parsers/*.py`: base models, Chase/Fidelity/Discover CSV parsers, a
universal OFX parser, a PDF statement parser, and a `ParserFactory` with
`parse_auto` auto-detection).  The parser implementation files themselves are
not part of the available sources, so every definition below that embeds them
is modelled from the specification's words (marked `Modelled from the spec:`).
Text is modelled as `List Char`; monetary amounts are integers in cents
(so `-5.75` is `-575`); bytes are `Nat` lists.
-/

namespace FinanceGPT

abbrev Chars := List Char

/-- Remove leading/trailing spaces and carriage returns. -/
def trimChars (s : Chars) : Chars :=
  (s.dropWhile (fun c => c = ' ' ∨ c = '\r' ∨ c = '\t')).reverse.dropWhile
    (fun c => c = ' ' ∨ c = '\r' ∨ c = '\t') |>.reverse

/-- Lower-case every character. -/
def lowerChars (s : Chars) : Chars := s.map Char.toLower

/-- Split a character list on a separator character. -/
def splitChar (sep : Char) : Chars → List Chars
  | [] => [[]]
  | c :: rest =>
    if c = sep then [] :: splitChar sep rest
    else
      match splitChar sep rest with
      | [] => [[c]]
      | h :: t => (c :: h) :: t

/-- Boolean substring test: does `pat` occur anywhere in `s`? -/
def containsSub (pat : Chars) : Chars → Bool
  | [] => pat.isPrefixOf ([] : Chars)
  | c :: rest => pat.isPrefixOf (c :: rest) || containsSub pat rest

/-- The suffix of `s` following the first occurrence of `pat`, if any. -/
def dropThroughSub (pat : Chars) : Chars → Option Chars
  | [] => if pat.isEmpty then some [] else none
  | c :: rest =>
    if pat.isPrefixOf (c :: rest) then some ((c :: rest).drop pat.length)
    else dropThroughSub pat rest

/-- The prefix of `s` before the first occurrence of `pat` (all of `s` if absent). -/
def takeBeforeSub (pat : Chars) : Chars → Chars
  | [] => []
  | c :: rest =>
    if pat.isPrefixOf (c :: rest) then []
    else c :: takeBeforeSub pat rest

/-- Digit string to number, most significant first. -/
def digitsVal (s : Chars) : Nat :=
  s.foldl (fun a c => a * 10 + (c.toNat - 48)) 0

/-- Parse a nonempty all-digit string as a natural number. -/
def parseNatDigits (s : Chars) : Option Nat :=
  if s ≠ [] ∧ s.all Char.isDigit then some (digitsVal s) else none

/-- Modelled from the spec: calendar date with no timezone (§3 data model). -/
structure Date where
  year : Nat
  month : Nat
  day : Nat
deriving DecidableEq

/-- Modelled from the spec: transaction type enumeration (§3 data model). -/
inductive TxnType
  | purchase | payment | debit | credit | transfer | fee | interest | unknown
deriving DecidableEq

/-- Modelled from the spec: canonical normalized bank transaction (§3).
Amount is in cents, debits negative and credits positive. -/
structure BankTransaction where
  institution : Chars
  accountId : Chars
  date : Date
  description : Chars
  amount : Int
  currency : Chars
  txnType : TxnType
  balance : Option Int
deriving DecidableEq

/-- Modelled from the spec: investment holding record (§3). -/
structure InvestmentHolding where
  accountId : Chars
  symbol : Chars
  description : Chars
  quantity : Int
  price : Option Int
  marketValue : Option Int
deriving DecidableEq

/-- Modelled from the spec: investment transaction record (§3). -/
structure InvestmentTransaction where
  accountId : Chars
  tradeDate : Date
  symbol : Chars
  action : Chars
  quantity : Int
  price : Option Int
  amount : Int
deriving DecidableEq

/-- Modelled from the spec: supported file formats (§4.1). -/
inductive FileFormat
  | CSV | OFX | PDF | UNKNOWN
deriving DecidableEq

/-- Modelled from the spec: ParseResult bundle (§3) — transactions, holdings,
investment transactions, institution, format, non-fatal warnings, and a flag
for whether at least one record was extracted. -/
structure ParseResult where
  transactions : List BankTransaction
  holdings : List InvestmentHolding
  investmentTransactions : List InvestmentTransaction
  institution : Chars
  sourceFormat : FileFormat
  warnings : List Chars
  hasRecords : Bool
deriving DecidableEq

/-- An empty ParseResult carrying the given warnings. -/
def emptyResult (inst : Chars) (fmt : FileFormat) (ws : List Chars) : ParseResult :=
  ⟨[], [], [], inst, fmt, ws, false⟩

/-- Modelled from the spec: source sign conventions (§4.2, glossary) — either
the file already shows debits negative, or it shows debits positive and must
be flipped to the canonical debit-negative convention. -/
inductive SignConvention
  | debitNegative | debitPositive
deriving DecidableEq

/-- Map a raw signed value under a source sign convention to the canonical
debit-negative / credit-positive convention. -/
def applySignConvention : SignConvention → Int → Int
  | .debitNegative, v => v
  | .debitPositive, v => -v

/-- Modelled from the spec (§4.2): strip currency symbols, thousands
separators and spaces from an amount field. -/
def stripAmountChars (s : Chars) : Chars :=
  s.filter (fun c => ¬(c = '$' ∨ c = ',' ∨ c = ' '))

/-- Parse an unsigned decimal amount (at most two fraction digits) to cents. -/
def parseUnsignedCents (s : Chars) : Option Int :=
  match splitChar '.' s with
  | [w] => (parseNatDigits w).map (fun n => (n : Int) * 100)
  | [w, f] =>
    match parseNatDigits w, parseNatDigits f with
    | some wn, some fn =>
      if f.length = 2 then some ((wn : Int) * 100 + (fn : Int))
      else if f.length = 1 then some ((wn : Int) * 100 + (fn : Int) * 10)
      else none
    | _, _ => none
  | _ => none

/-- Parse a decimal amount with an optional leading minus sign, to cents. -/
def parseDecimalCents : Chars → Option Int
  | [] => none
  | c :: rest =>
    if c = '-' then (parseUnsignedCents rest).map (fun v => -v)
    else parseUnsignedCents (c :: rest)

/-- Modelled from the spec (§4.2): amount parsing strips currency symbols and
thousands separators and interprets parentheses as negative. Result in cents. -/
def parseAmountRaw (s : Chars) : Option Int :=
  if (stripAmountChars s).head? = some '(' ∧ (stripAmountChars s).getLast? = some ')' then
    (parseDecimalCents (((stripAmountChars s).drop 1).dropLast)).map (fun v => -v)
  else parseDecimalCents (stripAmountChars s)

/-- Modelled from the spec (§4.2): full amount normalization — parse the raw
field, then apply the institution's sign convention. -/
def normalizeAmount (conv : SignConvention) (s : Chars) : Option Int :=
  (parseAmountRaw s).map (applySignConvention conv)

/-- Modelled from the spec (§4.2): parse `MM/DD/YYYY` with bounds checks. -/
def parseDateMDY (s : Chars) : Option Date :=
  match splitChar '/' s with
  | [m, d, y] =>
    match parseNatDigits m, parseNatDigits d, parseNatDigits y with
    | some mo, some da, some yr =>
      if 1 ≤ mo ∧ mo ≤ 12 ∧ 1 ≤ da ∧ da ≤ 31 then some ⟨yr, mo, da⟩ else none
    | _, _, _ => none
  | _ => none

/-- Modelled from the spec (§4.2): parse the `YYYY-MM-DD` fallback format. -/
def parseDateYMD (s : Chars) : Option Date :=
  match splitChar '-' s with
  | [y, m, d] =>
    match parseNatDigits y, parseNatDigits m, parseNatDigits d with
    | some yr, some mo, some da =>
      if 1 ≤ mo ∧ mo ≤ 12 ∧ 1 ≤ da ∧ da ≤ 31 then some ⟨yr, mo, da⟩ else none
    | _, _, _ => none
  | _ => none

/-- Modelled from the spec (§4.2): primary date format first, then fallback. -/
def parseDateAny (s : Chars) : Option Date :=
  match parseDateMDY s with
  | some d => some d
  | none => parseDateYMD s

/-- Split one CSV record into cells, honouring double-quoted fields. -/
def splitCSVAux : Bool → Chars → Chars → List Chars
  | _, acc, [] => [acc.reverse]
  | inQ, acc, c :: rest =>
    if c = '"' then splitCSVAux (!inQ) acc rest
    else if c = ',' ∧ inQ = false then acc.reverse :: splitCSVAux false [] rest
    else splitCSVAux inQ (c :: acc) rest

/-- Split a CSV record into cells. -/
def splitCSV (s : Chars) : List Chars := splitCSVAux false [] s

/-- Modelled from the spec (§4.2): the nonempty lines of a CSV file. -/
def csvLines (s : Chars) : List Chars :=
  (splitChar '\n' s).map trimChars |>.filter (fun l => l ≠ [])

/-- Modelled from the spec (§4.2): transaction-type keywords mapped to the
canonical enumeration, defaulting to `unknown`. -/
def parseTxnType (s : Chars) : TxnType :=
  let t := lowerChars (trimChars s)
  if t = "purchase".data then .purchase
  else if t = "payment".data then .payment
  else if t = "debit".data then .debit
  else if t = "credit".data then .credit
  else if t = "transfer".data then .transfer
  else if t = "fee".data then .fee
  else if t = "interest".data then .interest
  else .unknown

/-- Modelled from the spec (§3): description is never empty — blank source
fields fall back to a placeholder token. -/
def normalizeDescription (s : Chars) : Chars :=
  let t := trimChars s
  if t = [] then "UNKNOWN".data else t

/-- Modelled from the spec (§4.1, §8): per-institution CSV configuration —
institution name, required column names (lower case), and sign convention. -/
structure CSVConfig where
  institution : Chars
  dateCol : Chars
  descCol : Chars
  amountCol : Chars
  typeCol : Option Chars
  balanceCol : Option Chars
  signConv : SignConvention
deriving DecidableEq

/-- Resolved 0-based column indices for one CSV header. -/
structure ColIdx where
  dateIdx : Nat
  descIdx : Nat
  amountIdx : Nat
  typeIdx : Option Nat
  balanceIdx : Option Nat
deriving DecidableEq

/-- Find a column by (case-insensitive, trimmed) name in a header row. -/
def findCol (headers : List Chars) (name : Chars) : Option Nat :=
  headers.findIdx? (fun h => lowerChars (trimChars h) = name)

/-- Modelled from the spec (§4.2): columns are resolved by name; the
date/description/amount columns are mandatory, type/balance optional. -/
def resolveCols (cfg : CSVConfig) (headers : List Chars) : Option ColIdx :=
  match findCol headers cfg.dateCol, findCol headers cfg.descCol,
        findCol headers cfg.amountCol with
  | some di, some de, some am =>
    some ⟨di, de, am, cfg.typeCol.bind (findCol headers),
          cfg.balanceCol.bind (findCol headers)⟩
  | _, _, _ => none

/-- Modelled from the spec (§4.2): parse one CSV data row into a transaction;
`none` when the date is unparseable or a required field is missing. -/
def parseRowWith (cfg : CSVConfig) (idx : ColIdx) (row : Chars) :
    Option BankTransaction :=
  let cells := splitCSV row
  match cells.get? idx.dateIdx, cells.get? idx.descIdx,
        cells.get? idx.amountIdx with
  | some dS, some deS, some aS =>
    match parseDateAny (trimChars dS), normalizeAmount cfg.signConv aS with
    | some d, some a =>
      let ty := match idx.typeIdx.bind cells.get? with
        | some tS => parseTxnType tS
        | none => .unknown
      let bal := (idx.balanceIdx.bind cells.get?).bind parseAmountRaw
      some ⟨cfg.institution, [], d, normalizeDescription deS, a, "USD".data, ty, bal⟩
    | _, _ => none
  | _, _, _ => none

/-- Warning text for one skipped row. -/
def rowWarning (row : Chars) : Chars := "row skipped: ".data ++ row

/-- Modelled from the spec (§4.2, §7): CSV parse — mandatory header, columns
resolved by name, each data row parsed independently; a failing row is skipped
and recorded as a warning, never aborting the parse. -/
def csvParse (cfg : CSVConfig) (content : Chars) : ParseResult :=
  match csvLines content with
  | [] => emptyResult cfg.institution .CSV ["empty file".data]
  | header :: rows =>
    match resolveCols cfg (splitCSV header) with
    | none => emptyResult cfg.institution .CSV ["required columns missing".data]
    | some idx =>
      let txns := rows.filterMap (parseRowWith cfg idx)
      let warns := (rows.filter (fun r => (parseRowWith cfg idx r).isNone)).map rowWarning
      ⟨txns, [], [], cfg.institution, .CSV, warns, txns.length ≠ 0⟩

/-- Modelled from the spec (§4.2, §7): the only hard failure of a parser is
structurally unreadable input. -/
inductive HardFailure
  | UNREADABLE_INPUT | UNSUPPORTED_FORMAT | CORRUPT_CONTAINER
deriving DecidableEq

/-- Modelled from the spec (§4.2): decode a byte buffer to text; fails exactly
when some element is not a valid byte. -/
def decodeBytes (bs : List Nat) : Option Chars :=
  if bs.all (fun b => b < 256) then some (bs.map Char.ofNat) else none

/-- Modelled from the spec (§4.2, §7): full CSV parser entry point over bytes —
a hard failure only for undecodable input, all row problems are warnings. -/
def csvParseFile (cfg : CSVConfig) (bs : List Nat) :
    Except HardFailure ParseResult :=
  match decodeBytes bs with
  | none => .error .UNREADABLE_INPUT
  | some t => .ok (csvParse cfg t)

/-- Modelled from the spec (§4.2): tag-soup OFX field extraction — the value
of tag `T` is the text after the first `<T>` up to the next tag opener or line
break (closing tags may be absent in legacy exports). -/
def ofxTagValue (tag : Chars) (s : Chars) : Option Chars :=
  (dropThroughSub ('<' :: tag ++ ['>']) s).map
    (fun rest => trimChars (rest.takeWhile (fun c => ¬(c = '<' ∨ c = '\n' ∨ c = '\r'))))

/-- Modelled from the spec (§4.2): parse `YYYYMMDD` (possibly followed by a
time component) from a `DTPOSTED` value, with bounds checks. -/
def parseOfxDate (s : Chars) : Option Date :=
  let d := s.take 8
  if d.length = 8 ∧ d.all Char.isDigit then
    let yr := digitsVal (d.take 4)
    let mo := digitsVal ((d.drop 4).take 2)
    let da := digitsVal (d.drop 6)
    if 1 ≤ mo ∧ mo ≤ 12 ∧ 1 ≤ da ∧ da ≤ 31 then some ⟨yr, mo, da⟩ else none
  else none

/-- The suffixes following each occurrence of `pat` in `s`. -/
def suffixesAfter (pat : Chars) : Chars → List Chars
  | [] => []
  | c :: rest =>
    if pat.isPrefixOf (c :: rest) then
      ((c :: rest).drop pat.length) :: suffixesAfter pat rest
    else suffixesAfter pat rest

/-- Modelled from the spec (§4.2): the `<STMTTRN>` blocks of an OFX document,
each cut at the next `<STMTTRN>` opener (tag-soup walking). -/
def ofxBlocks (s : Chars) : List Chars :=
  (suffixesAfter "<STMTTRN>".data s).map (takeBeforeSub "<STMTTRN>".data)

/-- Modelled from the spec (§4.2, §8): one `STMTTRN` block to a transaction —
requires `TRNAMT` and `DTPOSTED`; `NAME` falls back to the placeholder.
OFX amounts already carry the canonical sign convention. -/
def parseStmtTrn (inst : Chars) (b : Chars) : Option BankTransaction :=
  match ofxTagValue "TRNAMT".data b, ofxTagValue "DTPOSTED".data b with
  | some aS, some dS =>
    match parseDecimalCents (trimChars aS), parseOfxDate (trimChars dS) with
    | some a, some d =>
      let name := normalizeDescription ((ofxTagValue "NAME".data b).getD [])
      let ty := match ofxTagValue "TRNTYPE".data b with
        | some tS => parseTxnType tS
        | none => .unknown
      some ⟨inst, [], d, name, a, "USD".data, ty, none⟩
    | _, _ => none
  | _, _ => none

/-- Modelled from the spec (§4.2): institution name from the OFX header's
financial-institution (`ORG`) field when present, else `unknown`. -/
def ofxInstitution (s : Chars) : Chars :=
  match ofxTagValue "ORG".data s with
  | some o => if o = [] then "unknown".data else o
  | none => "unknown".data

/-- Modelled from the spec (§4.2): universal OFX parser — walk the
`STMTTRN` blocks regardless of issuing institution; blocks that fail to parse
are skipped with a warning; zero transactions is a soft outcome. -/
def ofxParse (content : Chars) : ParseResult :=
  let inst := ofxInstitution content
  let blocks := ofxBlocks content
  let txns := blocks.filterMap (parseStmtTrn inst)
  let warns := (blocks.filter (fun b => (parseStmtTrn inst b).isNone)).map
    (fun _ => "transaction block skipped".data)
  let warns2 := if txns.length = 0 then warns ++ ["no transactions recognized".data] else warns
  ⟨txns, [], [], inst, .OFX, warns2, txns.length ≠ 0⟩

/-- Split a text into trimmed nonempty lines. -/
def textLines (s : Chars) : List Chars :=
  (splitChar '\n' s).map trimChars |>.filter (fun l => l ≠ [])

/-- Whitespace tokenization of one line. -/
def tokenizeLine (s : Chars) : List Chars :=
  (splitChar ' ' s).filter (fun t => t ≠ [])

/-- Modelled from the spec (§4.2, PDF_SUPPORT): one registered generic line
pattern — a `date description amount` triple, tolerant of an optional trailing
running-balance column.  The first token must parse as a date, the last (or
next-to-last, when a balance column trails) as an amount, with at least one
description token between them. -/
def pdfLineMatch (line : Chars) : Option (Date × Chars × Int × Option Int) :=
  match tokenizeLine line with
  | d :: rest =>
    match parseDateAny d with
    | some date =>
      match rest.reverse with
      | last :: prev :: more =>
        match parseAmountRaw last, parseAmountRaw prev with
        | some bal, some amt =>
          if more = [] then none
          else some (date, (more.reverse).foldr (fun t a => t ++ ' ' :: a) [], amt, some bal)
        | some amt, none =>
          some (date, ((prev :: more).reverse).foldr (fun t a => t ++ ' ' :: a) [], amt, none)
        | none, _ => none
      | _ => none
    | none => none
  | [] => none

/-- Modelled from the spec (§4.2, PDF_SUPPORT): PDF statement parser over the
extracted text — per-line pattern matching; zero matched lines is a valid
non-error outcome: an empty ParseResult plus a warning, never an exception. -/
def pdfStatementParse (inst : Chars) (text : Chars) : ParseResult :=
  let recs := (textLines text).filterMap pdfLineMatch
  let txns := recs.map (fun r =>
    ⟨inst, [], r.1, normalizeDescription r.2.1, r.2.2.1, "USD".data, .unknown, r.2.2.2⟩)
  if txns.length = 0 then
    emptyResult inst .PDF ["no transactions recognized".data]
  else ⟨txns, [], [], inst, .PDF, [], true⟩

/-- Modelled from the spec (§4.4, setup docs): connector types the factory can
return. -/
inductive ConnectorType
  | chaseBank | chaseCredit | fidelityInvestments | discoverCredit
  | ofxUpload | pdfStatement | genericCsv | unknownConnector
deriving DecidableEq

/-- Modelled from the spec (§4.1): classification returned by the Format
Detector: format, institution, and warnings (for the empty-buffer case). -/
structure Classification where
  format : FileFormat
  institution : Chars
  warnings : List Chars
deriving DecidableEq

/-- PDF magic: the buffer begins with the standard magic bytes. -/
def pdfMagic (buf : Chars) : Bool := "%PDF-".data.isPrefixOf buf

/-- Modelled from the spec (§4.1): OFX is detected by an `OFXHEADER` or
`<OFX>` marker near the start of the decoded text (first 256 characters). -/
def ofxMarker (buf : Chars) : Bool :=
  containsSub "OFXHEADER".data (buf.take 256) ||
  containsSub "<OFX>".data (buf.take 256)

/-- One CSV registry entry: connector, required lower-case column names, and
the parsing configuration. -/
structure CSVEntry where
  connector : ConnectorType
  requiredCols : List Chars
  cfg : CSVConfig
deriving DecidableEq

/-- Does a normalized header set satisfy a signature's required columns? -/
def sigMatches (required : List Chars) (headers : List Chars) : Bool :=
  required.all (fun c => (headers.map (fun h => lowerChars (trimChars h))).contains c)

/-- Modelled from the spec (setup docs): Chase checking/savings CSV layout
`Date,Description,Amount,Type,Balance`; amounts already debit-negative. -/
def chaseBankCfg : CSVConfig :=
  ⟨"chase".data, "date".data, "description".data, "amount".data,
   some "type".data, some "balance".data, .debitNegative⟩

/-- Modelled from the spec (setup docs): Chase credit-card CSV layout
`Transaction Date,Post Date,Description,Category,Type,Amount`. -/
def chaseCreditCfg : CSVConfig :=
  ⟨"chase".data, "transaction date".data, "description".data, "amount".data,
   some "type".data, none, .debitNegative⟩

/-- Modelled from the spec (setup docs): Discover credit-card CSV layout
`Trans. Date,Post Date,Description,Amount,Category`; the source shows
purchases (debits) positive, so the sign convention is flipped. -/
def discoverCfg : CSVConfig :=
  ⟨"discover".data, "trans. date".data, "description".data, "amount".data,
   none, none, .debitPositive⟩

/-- Modelled from the spec (§4.1): generic best-effort CSV configuration,
requiring at minimum date/description/amount columns. -/
def genericCsvCfg : CSVConfig :=
  ⟨"generic".data, "date".data, "description".data, "amount".data,
   none, none, .debitNegative⟩

/-- Modelled from the spec (§4.1, §6): static registry of known CSV column
signatures, most specific first; first match wins. -/
def csvRegistry : List CSVEntry :=
  [⟨.chaseCredit,
    ["transaction date".data, "post date".data, "description".data,
     "category".data, "type".data, "amount".data], chaseCreditCfg⟩,
   ⟨.discoverCredit,
    ["trans. date".data, "post date".data, "description".data,
     "amount".data, "category".data], discoverCfg⟩,
   ⟨.chaseBank,
    ["date".data, "description".data, "amount".data, "type".data,
     "balance".data], chaseBankCfg⟩]

/-- Modelled from the spec (§4.1): first registry signature matching all of
its required columns in the CSV header row. -/
def findCsvEntry (buf : Chars) : Option CSVEntry :=
  match csvLines buf with
  | [] => none
  | header :: _ => csvRegistry.find? (fun e => sigMatches e.requiredCols (splitCSV header))

/-- Modelled from the spec (§4.1): institution tokens scanned near the top of
PDF text, else `generic`. -/
def pdfInstitution (buf : Chars) : Chars :=
  let top := lowerChars (buf.take 512)
  if containsSub "chase".data top then "chase".data
  else if containsSub "discover".data top then "discover".data
  else "generic".data

/-- Modelled from the spec (§4.1): the Format Detector — pure and total; an
empty buffer classifies as UNKNOWN with a warning; PDF magic bytes and OFX
markers override any extension hint; CSV is the default once OFX/PDF
signatures are absent, with the institution resolved from the header
signature registry (no match → `generic`). -/
def detect_format (buf : Chars) (fname : Chars) : Classification :=
  if buf = [] then ⟨.UNKNOWN, "generic".data, ["empty input".data]⟩
  else if pdfMagic buf then ⟨.PDF, pdfInstitution buf, []⟩
  else if ofxMarker buf then ⟨.OFX, "unknown".data, []⟩
  else
    match findCsvEntry buf with
    | some e => ⟨.CSV, e.cfg.institution, []⟩
    | none => ⟨.CSV, "generic".data, []⟩

/-- Modelled from the spec (§4.3): PDF text extraction service.  Real PDF
container decoding is outside the model; extraction is modelled as yielding
the textual content of the buffer deterministically. -/
def pdfExtractText (buf : Chars) : Chars := buf

/-- Modelled from the spec (§4.4): dispatcher core — detect, resolve the
parser from the static registry with generic fallback, and return the
connector together with the parser's unmodified ParseResult. -/
def parseAutoResult (buf fname : Chars) : ConnectorType × ParseResult :=
  let c := detect_format buf fname
  match c.format with
  | .PDF => (.pdfStatement, pdfStatementParse (pdfInstitution buf) (pdfExtractText buf))
  | .OFX => (.ofxUpload, ofxParse buf)
  | .CSV =>
    match findCsvEntry buf with
    | some e => (e.connector, csvParse e.cfg buf)
    | none => (.genericCsv, csvParse genericCsvCfg buf)
  | .UNKNOWN => (.unknownConnector, emptyResult "generic".data .UNKNOWN c.warnings)

/-- Modelled from the setup docs: the value type of the dictionary-shaped
result the factory returns (`result['transactions']`, etc.). -/
inductive DictValue
  | txns : List BankTransaction → DictValue
  | holds : List InvestmentHolding → DictValue
  | invTxns : List InvestmentTransaction → DictValue
  | strs : List Chars → DictValue
  | str : Chars → DictValue
deriving DecidableEq

/-- Dictionary-shaped parse result: string keys to values. -/
def ResultDict := List (Chars × DictValue)

/-- Dictionary lookup by key. -/
def dictLookup (k : Chars) (d : ResultDict) : Option DictValue :=
  (d.find? (fun p => p.1 = k)).map (fun p => p.2)

/-- Modelled from the setup docs: a ParseResult rendered at the factory
boundary as a dictionary whose `transactions` key holds the list. -/
def toDict (r : ParseResult) : ResultDict :=
  [("transactions".data, .txns r.transactions),
   ("holdings".data, .holds r.holdings),
   ("investment_transactions".data, .invTxns r.investmentTransactions),
   ("institution".data, .str r.institution),
   ("warnings".data, .strs r.warnings)]

/-- Modelled from the spec (§4.4) and the setup docs: the single entry point —
returns the detected connector type and the dictionary-shaped result. -/
def parse_auto (buf fname : Chars) : ConnectorType × ResultDict :=
  ((parseAutoResult buf fname).1, toDict (parseAutoResult buf fname).2)

/-- Modelled from the spec (§5): the parsing core keeps no state between
calls; a call is a pure function of its inputs returning the state unchanged. -/
def ParserState := Unit

/-- A `parse_auto` invocation threaded through the (trivial) shared state. -/
def parseAutoCall (s : ParserState) (buf fname : Chars) :
    ParserState × (ConnectorType × ResultDict) :=
  (s, parse_auto buf fname)

/-- Decimal digit to its character. -/
def digitToChar (d : Nat) : Char := Char.ofNat (48 + d)

/-- Digits of a positive number, most significant first, with explicit fuel. -/
def natToDigitsAux : Nat → Nat → Chars
  | 0, _ => []
  | _ + 1, 0 => []
  | fuel + 1, n + 1 =>
    natToDigitsAux fuel ((n + 1) / 10) ++ [digitToChar ((n + 1) % 10)]

/-- Decimal rendering of a natural number. -/
def natToDigits (n : Nat) : Chars :=
  if n = 0 then ['0'] else natToDigitsAux n n

/-- Two-digit rendering of a number below 100. -/
def twoDigitChars (m : Nat) : Chars := [digitToChar (m / 10), digitToChar (m % 10)]

/-- Render a nonnegative amount in cents as `whole.fraction`. -/
def renderUnsignedCents (n : Nat) : Chars :=
  natToDigits (n / 100) ++ '.' :: twoDigitChars (n % 100)

/-- Render a canonical (already normalized) amount in cents back to text, the
way a normalized record would display it. -/
def renderCents (v : Int) : Chars :=
  if v < 0 then '-' :: renderUnsignedCents v.natAbs
  else renderUnsignedCents v.natAbs

/-! ## Helper lemmas -/

theorem digitToChar_isDigit {d : Nat} (h : d < 10) : (digitToChar d).isDigit = true := by
  unfold digitToChar; interval_cases d <;> decide

theorem digitToChar_toNat {d : Nat} (h : d < 10) : (digitToChar d).toNat = 48 + d := by
  unfold digitToChar; interval_cases d <;> decide

theorem isDigit_not_special {c : Char} (h : c.isDigit = true) :
    ¬(c = '$' ∨ c = ',' ∨ c = ' ') := by
  rintro (rfl | rfl | rfl) <;> simp [Char.isDigit] at h

theorem isDigit_ne_dot {c : Char} (h : c.isDigit = true) : c ≠ '.' := by
  rintro rfl; simp [Char.isDigit] at h

theorem isDigit_ne_dash {c : Char} (h : c.isDigit = true) : c ≠ '-' := by
  rintro rfl; simp [Char.isDigit] at h

theorem isDigit_ne_lparen {c : Char} (h : c.isDigit = true) : c ≠ '(' := by
  rintro rfl; simp [Char.isDigit] at h

theorem mem_all_digits {s : Chars} {c : Char} (hall : s.all Char.isDigit = true)
    (hm : c ∈ s) : c.isDigit = true :=
  List.all_eq_true.mp hall c hm

theorem ntd_aux_all_digits : ∀ fuel n, (natToDigitsAux fuel n).all Char.isDigit = true := by
  intro fuel
  induction fuel with
  | zero => intro n; rfl
  | succ f ih =>
    intro n
    cases n with
    | zero => rfl
    | succ m =>
      have hd : (digitToChar ((m + 1) % 10)).isDigit = true :=
        digitToChar_isDigit (Nat.mod_lt _ (by omega))
      simp [natToDigitsAux, List.all_append, ih, hd]

theorem natToDigits_all_digits (n : Nat) : (natToDigits n).all Char.isDigit = true := by
  unfold natToDigits
  split
  · decide
  · exact ntd_aux_all_digits n n

theorem ntd_aux_ne_nil {fuel n : Nat} (h1 : 1 ≤ n) (h2 : n ≤ fuel) :
    natToDigitsAux fuel n ≠ [] := by
  cases fuel with
  | zero => omega
  | succ f =>
    cases n with
    | zero => omega
    | succ m => simp [natToDigitsAux]

theorem natToDigits_ne_nil (n : Nat) : natToDigits n ≠ [] := by
  unfold natToDigits
  split
  · simp
  · exact ntd_aux_ne_nil (by omega) le_rfl

theorem digitsVal_append_single (a : Chars) (c : Char) :
    digitsVal (a ++ [c]) = digitsVal a * 10 + (c.toNat - 48) := by
  unfold digitsVal
  rw [List.foldl_append]
  rfl

theorem ntd_aux_val : ∀ fuel n, n ≤ fuel → digitsVal (natToDigitsAux fuel n) = n := by
  intro fuel
  induction fuel with
  | zero => intro n h; interval_cases n; rfl
  | succ f ih =>
    intro n h
    cases n with
    | zero => rfl
    | succ m =>
      have hdiv : (m + 1) / 10 ≤ f := by omega
      have hmod : (m + 1) % 10 < 10 := Nat.mod_lt _ (by omega)
      simp only [natToDigitsAux, digitsVal_append_single, ih _ hdiv,
        digitToChar_toNat hmod]
      omega

theorem parseNatDigits_natToDigits (n : Nat) : parseNatDigits (natToDigits n) = some n := by
  unfold parseNatDigits
  rw [if_pos ⟨natToDigits_ne_nil n, natToDigits_all_digits n⟩]
  congr 1
  unfold natToDigits
  split
  · rename_i h; rw [h]; rfl
  · exact ntd_aux_val n n le_rfl

theorem splitChar_of_not_mem {sep : Char} : ∀ {a : Chars}, sep ∉ a → splitChar sep a = [a] := by
  intro a
  induction a with
  | nil => intro _; rfl
  | cons c t ih =>
    intro h
    have hc : ¬ c = sep := fun e => h (e ▸ List.mem_cons_self c t)
    have ht : sep ∉ t := fun hm => h (List.mem_cons_of_mem _ hm)
    simp [splitChar, hc, ih ht]

theorem splitChar_append {sep : Char} : ∀ {a : Chars} (b : Chars), sep ∉ a →
    splitChar sep (a ++ sep :: b) = a :: splitChar sep b := by
  intro a
  induction a with
  | nil => intro b _; simp [splitChar]
  | cons c t ih =>
    intro b h
    have hc : ¬ c = sep := fun e => h (e ▸ List.mem_cons_self c t)
    have ht : sep ∉ t := fun hm => h (List.mem_cons_of_mem _ hm)
    simp [splitChar, hc, ih b ht]

theorem twoDigit_all_digits {m : Nat} (h : m < 100) :
    (twoDigitChars m).all Char.isDigit = true := by
  have h1 : (digitToChar (m / 10)).isDigit = true := digitToChar_isDigit (by omega)
  have h2 : (digitToChar (m % 10)).isDigit = true :=
    digitToChar_isDigit (Nat.mod_lt _ (by omega))
  simp [twoDigitChars, h1, h2]

theorem digitsVal_twoDigit {m : Nat} (h : m < 100) : digitsVal (twoDigitChars m) = m := by
  show (0 * 10 + ((digitToChar (m / 10)).toNat - 48)) * 10 +
    ((digitToChar (m % 10)).toNat - 48) = m
  rw [digitToChar_toNat (show m / 10 < 10 by omega),
    digitToChar_toNat (Nat.mod_lt _ (by omega))]
  omega

theorem parseNatDigits_twoDigit {m : Nat} (h : m < 100) :
    parseNatDigits (twoDigitChars m) = some m := by
  unfold parseNatDigits
  rw [if_pos ⟨by simp [twoDigitChars], twoDigit_all_digits h⟩, digitsVal_twoDigit h]

theorem splitDot_renderUnsigned (n : Nat) :
    splitChar '.' (renderUnsignedCents n) =
      [natToDigits (n / 100), twoDigitChars (n % 100)] := by
  unfold renderUnsignedCents
  have h1 : '.' ∉ natToDigits (n / 100) := fun hm =>
    isDigit_ne_dot (mem_all_digits (natToDigits_all_digits _) hm) rfl
  have h2 : '.' ∉ twoDigitChars (n % 100) := fun hm =>
    isDigit_ne_dot (mem_all_digits (twoDigit_all_digits (Nat.mod_lt _ (by omega))) hm) rfl
  rw [splitChar_append _ h1, splitChar_of_not_mem h2]

theorem parseUnsignedCents_render (n : Nat) :
    parseUnsignedCents (renderUnsignedCents n) = some (n : Int) := by
  unfold parseUnsignedCents
  rw [splitDot_renderUnsigned]
  simp only [parseNatDigits_natToDigits,
    parseNatDigits_twoDigit (Nat.mod_lt n (by omega))]
  have hlen : (twoDigitChars (n % 100)).length = 2 := rfl
  simp only [hlen, if_true, reduceIte]
  congr 1
  omega

theorem renderUnsigned_head_digit (n : Nat) :
    ∃ c rest, renderUnsignedCents n = c :: rest ∧ c.isDigit = true := by
  unfold renderUnsignedCents
  cases hnd : natToDigits (n / 100) with
  | nil => exact absurd hnd (natToDigits_ne_nil _)
  | cons c rest =>
    refine ⟨c, rest ++ '.' :: twoDigitChars (n % 100), by simp, ?_⟩
    exact mem_all_digits (natToDigits_all_digits (n / 100))
      (hnd ▸ List.mem_cons_self c rest)

theorem stripAmount_keep {s : Chars}
    (h : ∀ c ∈ s, ¬(c = '$' ∨ c = ',' ∨ c = ' ')) :
    stripAmountChars s = s := by
  apply List.filter_eq_self.mpr
  intro c hm
  simpa using h c hm

theorem renderUnsigned_chars_ok (n : Nat) :
    ∀ c ∈ renderUnsignedCents n, ¬(c = '$' ∨ c = ',' ∨ c = ' ') := by
  intro c hm
  unfold renderUnsignedCents at hm
  rcases List.mem_append.mp hm with h1 | h2
  · exact isDigit_not_special (mem_all_digits (natToDigits_all_digits _) h1)
  · rcases List.mem_cons.mp h2 with rfl | h3
    · decide
    · exact isDigit_not_special
        (mem_all_digits (twoDigit_all_digits (Nat.mod_lt _ (by omega))) h3)

theorem strip_renderUnsigned (n : Nat) :
    stripAmountChars (renderUnsignedCents n) = renderUnsignedCents n :=
  stripAmount_keep (renderUnsigned_chars_ok n)

theorem strip_renderCents (v : Int) :
    stripAmountChars (renderCents v) = renderCents v := by
  unfold renderCents
  split
  · apply stripAmount_keep
    intro c hm
    rcases List.mem_cons.mp hm with rfl | h2
    · decide
    · exact renderUnsigned_chars_ok v.natAbs c h2
  · exact strip_renderUnsigned v.natAbs

theorem parseDecimalCents_renderUnsigned (n : Nat) :
    parseDecimalCents (renderUnsignedCents n) = some (n : Int) := by
  obtain ⟨c, rest, heq, hdig⟩ := renderUnsigned_head_digit n
  rw [heq, parseDecimalCents, if_neg (isDigit_ne_dash hdig), ← heq,
    parseUnsignedCents_render]

theorem renderCents_head_not_lparen (v : Int) :
    ¬ (renderCents v).head? = some '(' := by
  unfold renderCents
  split
  · intro h
    rw [List.head?_cons, Option.some_inj] at h
    exact absurd h (by decide)
  · obtain ⟨c, rest, heq, hdig⟩ := renderUnsigned_head_digit v.natAbs
    rw [heq]
    intro h
    rw [List.head?_cons, Option.some_inj] at h
    exact isDigit_ne_lparen hdig h

theorem parseAmountRaw_renderCents (v : Int) :
    parseAmountRaw (renderCents v) = some v := by
  unfold parseAmountRaw
  rw [strip_renderCents]
  rw [if_neg (fun hand => renderCents_head_not_lparen v hand.1)]
  unfold renderCents
  split
  · rename_i hneg
    rw [parseDecimalCents, if_pos rfl, parseUnsignedCents_render]
    show some (-((v.natAbs : Nat) : Int)) = some v
    congr 1
    omega
  · rename_i hpos
    rw [parseDecimalCents_renderUnsigned]
    congr 1
    omega

theorem strip_idem (s : Chars) :
    stripAmountChars (stripAmountChars s) = stripAmountChars s := by
  apply List.filter_eq_self.mpr
  intro c hm
  exact (List.mem_filter.mp hm).2

theorem length_filterMap_eq_countP {α β : Type} (f : α → Option β) (l : List α) :
    (l.filterMap f).length = l.countP (fun a => (f a).isSome) := by
  induction l with
  | nil => rfl
  | cons a t ih => cases h : f a <;> simp [List.filterMap_cons, h, List.countP_cons, ih]

theorem length_filterMap_add_skipped {α β : Type} (f : α → Option β) (l : List α) :
    (l.filterMap f).length + (l.filter (fun a => (f a).isNone)).length = l.length := by
  induction l with
  | nil => rfl
  | cons a t ih => cases h : f a <;> simp [List.filterMap_cons, h, List.filter_cons] <;> omega

/-! ## Concrete sample inputs -/

/-- The Chase checking CSV of the spec's concrete scenario (§8). -/
def chaseSample : Chars :=
  "Date,Description,Amount,Type,Balance\n01/15/2024,\"STARBUCKS #123\",-5.75,DEBIT,1000.00".data

/-- The OFX file of the spec's concrete scenario (§8). -/
def ofxSample : Chars :=
  "OFXHEADER:100\n<OFX>\n<SIGNONMSGSRSV1>\n<FI>\n<ORG>First Bank\n</FI>\n<BANKTRANLIST>\n<STMTTRN>\n<TRNTYPE>DEBIT\n<DTPOSTED>20240115\n<TRNAMT>-42.00\n<NAME>ACME STORE\n</STMTTRN>\n</BANKTRANLIST>\n</OFX>".data

/-- Extracted PDF text in which no line matches any registered pattern. -/
def pdfNoMatchText : Chars :=
  "CHASE BANK STATEMENT\nAccount summary\nno transactions in this document".data

/-- A buffer that both begins with the PDF magic bytes and contains an
`<OFX>` marker near the start. -/
def pdfOfxOverlap : Chars := "%PDF-<OFX>".data

/-- A Chase-layout CSV with ten data rows of which exactly one (row 4, bad
date) is malformed. -/
def tenRowCsv : Chars :=
  ("Date,Description,Amount,Type,Balance\n" ++
   "01/01/2024,A,-1.00,DEBIT,10.00\n" ++
   "01/02/2024,B,-2.00,DEBIT,8.00\n" ++
   "01/03/2024,C,-3.00,DEBIT,5.00\n" ++
   "BADDATE,D,-4.00,DEBIT,1.00\n" ++
   "01/05/2024,E,5.00,CREDIT,6.00\n" ++
   "01/06/2024,F,-1.50,DEBIT,4.50\n" ++
   "01/07/2024,G,-0.50,DEBIT,4.00\n" ++
   "01/08/2024,H,2.00,CREDIT,6.00\n" ++
   "01/09/2024,I,-1.00,DEBIT,5.00\n" ++
   "01/10/2024,J,-2.25,DEBIT,2.75").data

/-! ## Claim theorems -/

/-- C1 (counterexample): the claim as stated is false — a buffer can begin
with the PDF magic bytes `%PDF-` and simultaneously contain an `<OFX>` marker
near the start of the decoded text; on such a buffer `parse_auto` selects the
PDF parser, so the OFX half of the claim ("for every byte buffer containing an
`<OFX>` marker near the start, parse_auto selects the OFX parser") fails at
this concrete input even with an `.ofx` filename. -/
theorem content_sniffing_overlap_counterexample :
    pdfMagic pdfOfxOverlap = true ∧
    ofxMarker pdfOfxOverlap = true ∧
    (parse_auto pdfOfxOverlap "doc.ofx".data).1 = ConnectorType.pdfStatement ∧
    ¬(parse_auto pdfOfxOverlap "doc.ofx".data).1 = ConnectorType.ofxUpload := by
  decide

/-- C1 (amended): content sniffing always overrides the extension hint — for
every byte buffer beginning with `%PDF-`, `parse_auto` selects the PDF-family
parser whatever the filename is; and for every buffer that does NOT begin with
`%PDF-` and contains an `OFXHEADER` or `<OFX>` marker near the start,
`parse_auto` selects the OFX parser whatever the filename is. -/
theorem content_sniffing_precedence : ∀ buf fname : Chars,
    (pdfMagic buf = true →
      (parse_auto buf fname).1 = ConnectorType.pdfStatement) ∧
    (pdfMagic buf = false → ofxMarker buf = true →
      (parse_auto buf fname).1 = ConnectorType.ofxUpload) := by
  intro buf fname
  constructor
  · intro h
    have hne : buf ≠ [] := by
      intro he
      rw [he] at h
      exact absurd h (by decide)
    simp [parse_auto, parseAutoResult, detect_format, hne, h]
  · intro h1 h2
    have hne : buf ≠ [] := by
      intro he
      rw [he] at h2
      exact absurd h2 (by decide)
    simp [parse_auto, parseAutoResult, detect_format, hne, h1, h2]

/-- C1 (witness): the amended claim applied at concrete inputs — a PDF-magic
buffer with a `.csv` name selects the PDF parser, and an OFX-marked buffer
with a `.csv` name selects the OFX parser. -/
theorem content_sniffing_precedence_witness :
    (parse_auto "%PDF-1.4 sample".data "statement.csv".data).1 =
      ConnectorType.pdfStatement ∧
    (parse_auto "OFXHEADER:100 data".data "statement.csv".data).1 =
      ConnectorType.ofxUpload :=
  ⟨(content_sniffing_precedence "%PDF-1.4 sample".data "statement.csv".data).1
      (by decide),
   (content_sniffing_precedence "OFXHEADER:100 data".data "statement.csv".data).2
      (by decide) (by decide)⟩

/-- C6: the Chase checking CSV with header `Date,Description,Amount,Type,Balance`
and single data row `01/15/2024,"STARBUCKS #123",-5.75,DEBIT,1000.00` parses via
the Chase parser to exactly one BankTransaction with date 2024-01-15, a
description containing "STARBUCKS", amount -5.75 (i.e. -575 cents) and
transaction type `debit`; the factory also routes this file to the Chase bank
connector. -/
theorem chase_checking_scenario :
    ((csvParse chaseBankCfg chaseSample).transactions.map (fun t =>
        (t.date, containsSub "STARBUCKS".data t.description, t.amount, t.txnType))) =
      [(⟨2024, 1, 15⟩, true, -575, TxnType.debit)] ∧
    (parseAutoResult chaseSample "statement.csv".data).1 = ConnectorType.chaseBank := by
  decide

/-- C7: the OFX file with one `<STMTTRN>` block carrying `<TRNAMT>-42.00`,
`<NAME>ACME STORE` and `<DTPOSTED>20240115` parses to exactly one transaction
with amount -42.00 (-4200 cents) and date 2024-01-15, and its institution is
the OFX header's `ORG` value "First Bank"; in general the institution of an
OFX parse is the header's financial-institution field when present and
nonempty, and "unknown" when the field is absent. -/
theorem ofx_stmttrn_scenario :
    ((ofxParse ofxSample).transactions.map (fun t => (t.date, t.amount))) =
      [(⟨2024, 1, 15⟩, -4200)] ∧
    (ofxParse ofxSample).institution = "First Bank".data ∧
    (∀ content o, ofxTagValue "ORG".data content = some o → o ≠ [] →
      (ofxParse content).institution = o) ∧
    (∀ content, ofxTagValue "ORG".data content = none →
      (ofxParse content).institution = "unknown".data) := by
  refine ⟨by decide, by decide, ?_, ?_⟩
  · intro content o h hne
    simp [ofxParse, ofxInstitution, h, hne]
  · intro content h
    simp [ofxParse, ofxInstitution, h]

/-- C7 (witness): the institution clause applied at the concrete OFX sample,
whose `ORG` header value is "First Bank". -/
theorem ofx_stmttrn_scenario_witness :
    (ofxParse ofxSample).institution = "First Bank".data :=
  ofx_stmttrn_scenario.2.2.1 ofxSample "First Bank".data (by decide) (by decide)

/-- C8: whenever no line of the extracted text matches the registered
`date description amount` pattern, the PDF statement parser returns an empty
ParseResult carrying exactly the non-fatal "no transactions recognized"
warning, with no records — a total function, not an exception or hard
failure. -/
theorem pdf_no_match_soft_outcome : ∀ inst text : Chars,
    (∀ l ∈ textLines text, pdfLineMatch l = none) →
    (pdfStatementParse inst text).transactions = [] ∧
    (pdfStatementParse inst text).warnings = ["no transactions recognized".data] ∧
    (pdfStatementParse inst text).hasRecords = false := by
  intro inst text h
  have hnil : (textLines text).filterMap pdfLineMatch = [] :=
    List.filterMap_eq_nil_iff.mpr h
  simp [pdfStatementParse, hnil, emptyResult]

/-- C8 (witness): applied at a concrete extracted text with no matching line. -/
theorem pdf_no_match_soft_outcome_witness :
    (pdfStatementParse "chase".data pdfNoMatchText).transactions = [] ∧
    (pdfStatementParse "chase".data pdfNoMatchText).warnings =
      ["no transactions recognized".data] ∧
    (pdfStatementParse "chase".data pdfNoMatchText).hasRecords = false :=
  pdf_no_match_soft_outcome "chase".data pdfNoMatchText (by decide)

/-- C9: the Format Detector is a total function — every buffer/filename pair
gets one of the four classifications; the empty buffer classifies as UNKNOWN
with a warning; and input matching no PDF/OFX signature and no CSV
institution signature defaults to CSV/generic rather than an error. -/
theorem format_detector_total :
    (∀ fname : Chars, detect_format [] fname =
      ⟨.UNKNOWN, "generic".data, ["empty input".data]⟩) ∧
    (∀ buf fname : Chars,
      (detect_format buf fname).format = .CSV ∨
      (detect_format buf fname).format = .OFX ∨
      (detect_format buf fname).format = .PDF ∨
      (detect_format buf fname).format = .UNKNOWN) ∧
    (∀ buf fname : Chars, buf ≠ [] → pdfMagic buf = false → ofxMarker buf = false →
      findCsvEntry buf = none →
      detect_format buf fname = ⟨.CSV, "generic".data, []⟩) := by
  refine ⟨?_, ?_, ?_⟩
  · intro fname
    simp [detect_format]
  · intro buf fname
    unfold detect_format
    split
    · simp
    · split
      · simp
      · split
        · simp
        · split <;> simp
  · intro buf fname hne h1 h2 h3
    simp [detect_format, hne, h1, h2, h3]

/-- C9 (witness): the defaulting clause applied at a concrete unmatched
buffer, and the empty-buffer clause at a concrete filename. -/
theorem format_detector_total_witness :
    detect_format "hello world".data "upload.bin".data =
      ⟨.CSV, "generic".data, []⟩ ∧
    detect_format [] "upload.bin".data =
      ⟨.UNKNOWN, "generic".data, ["empty input".data]⟩ :=
  ⟨format_detector_total.2.2 "hello world".data "upload.bin".data
      (by decide) (by decide) (by decide) (by decide),
   format_detector_total.1 "upload.bin".data⟩

/-- C10: for every input, `parse_auto` returns a pair of the detected
connector type and a dictionary-shaped result in which the parsed transactions
are the list stored under the key `transactions` (rather than a ParseResult
record at the factory boundary). -/
theorem parse_auto_dict_shape : ∀ buf fname : Chars,
    (parse_auto buf fname).1 = (parseAutoResult buf fname).1 ∧
    dictLookup "transactions".data (parse_auto buf fname).2 =
      some (DictValue.txns (parseAutoResult buf fname).2.transactions) := by
  intro buf fname
  exact ⟨rfl, rfl⟩

/-- C5: `parse_auto` is a deterministic pure function of its inputs — an
invocation threaded through the parser's (empty) shared state returns the
state unchanged, its result does not depend on the incoming state, and a call
made after any other call returns exactly the result of a fresh call on the
same input. -/
theorem parse_auto_deterministic_stateless :
    ∀ (s1 s2 : ParserState) (buf fname buf2 fname2 : Chars),
    (parseAutoCall s1 buf fname).2 = (parseAutoCall s2 buf fname).2 ∧
    (parseAutoCall s1 buf fname).1 = s1 ∧
    (parseAutoCall ((parseAutoCall s1 buf2 fname2).1) buf fname).2 =
      (parseAutoCall s1 buf fname).2 := by
  intro s1 s2 buf fname buf2 fname2
  exact ⟨rfl, rfl, rfl⟩

/-- C2: for a CSV recognized by an institution signature (header present and
its required columns resolved), the parse returns at most one transaction per
data row, and at least one transaction as soon as some data row has a valid
date/description/amount. -/
theorem csv_parse_bounds : ∀ (cfg : CSVConfig) (content header : Chars)
    (rows : List Chars) (idx : ColIdx),
    csvLines content = header :: rows →
    resolveCols cfg (splitCSV header) = some idx →
    (csvParse cfg content).transactions.length ≤ rows.length ∧
    (∀ r ∈ rows, (parseRowWith cfg idx r).isSome = true →
      1 ≤ (csvParse cfg content).transactions.length) := by
  intro cfg content header rows idx h1 h2
  have htx : (csvParse cfg content).transactions =
      rows.filterMap (parseRowWith cfg idx) := by
    simp [csvParse, h1, h2]
  rw [htx]
  constructor
  · exact List.length_filterMap_le _ _
  · intro r hr hsome
    obtain ⟨t, ht⟩ := Option.isSome_iff_exists.mp hsome
    exact List.length_pos.mpr
      (List.ne_nil_of_mem (List.mem_filterMap.mpr ⟨r, hr, ht⟩))

/-- C2 (witness): applied at the one-valid-row Chase sample — exactly the
bounds 1 ≤ n ≤ 1. -/
theorem csv_parse_bounds_witness :
    1 ≤ (csvParse chaseBankCfg chaseSample).transactions.length ∧
    (csvParse chaseBankCfg chaseSample).transactions.length ≤ 1 := by
  have h := csv_parse_bounds chaseBankCfg chaseSample
    "Date,Description,Amount,Type,Balance".data
    ["01/15/2024,\"STARBUCKS #123\",-5.75,DEBIT,1000.00".data]
    ⟨0, 1, 2, some 3, some 4⟩ (by decide) (by decide)
  exact ⟨h.2 "01/15/2024,\"STARBUCKS #123\",-5.75,DEBIT,1000.00".data
    (by decide) (by decide), h.1⟩

/-- The ten data rows of `tenRowCsv`. -/
def tenRows : List Chars :=
  ["01/01/2024,A,-1.00,DEBIT,10.00".data,
   "01/02/2024,B,-2.00,DEBIT,8.00".data,
   "01/03/2024,C,-3.00,DEBIT,5.00".data,
   "BADDATE,D,-4.00,DEBIT,1.00".data,
   "01/05/2024,E,5.00,CREDIT,6.00".data,
   "01/06/2024,F,-1.50,DEBIT,4.50".data,
   "01/07/2024,G,-0.50,DEBIT,4.00".data,
   "01/08/2024,H,2.00,CREDIT,6.00".data,
   "01/09/2024,I,-1.00,DEBIT,5.00".data,
   "01/10/2024,J,-2.25,DEBIT,2.75".data]

/-- C3: row-level corruption containment — a decodable byte buffer never hard
fails (the parser returns an ok ParseResult); for a recognized CSV the number
of transactions plus the number of row warnings always equals the number of
data rows (every bad row is skipped with exactly one warning, never aborting);
in particular ten data rows of which nine parse yield exactly 9 transactions
and exactly 1 warning. -/
theorem csv_row_corruption_containment :
    (∀ (cfg : CSVConfig) (bs : List Nat) (t : Chars), decodeBytes bs = some t →
      csvParseFile cfg bs = Except.ok (csvParse cfg t)) ∧
    (∀ (cfg : CSVConfig) (content header : Chars) (rows : List Chars)
      (idx : ColIdx),
      csvLines content = header :: rows →
      resolveCols cfg (splitCSV header) = some idx →
      ((csvParse cfg content).transactions.length +
        (csvParse cfg content).warnings.length = rows.length ∧
       (rows.length = 10 →
        rows.countP (fun r => (parseRowWith cfg idx r).isSome) = 9 →
        (csvParse cfg content).transactions.length = 9 ∧
        (csvParse cfg content).warnings.length = 1))) := by
  constructor
  · intro cfg bs t h
    simp [csvParseFile, h]
  · intro cfg content header rows idx h1 h2
    have htx : (csvParse cfg content).transactions =
        rows.filterMap (parseRowWith cfg idx) := by
      simp [csvParse, h1, h2]
    have hw : (csvParse cfg content).warnings =
        (rows.filter (fun r => (parseRowWith cfg idx r).isNone)).map rowWarning := by
      simp [csvParse, h1, h2]
    have hacc : (csvParse cfg content).transactions.length +
        (csvParse cfg content).warnings.length = rows.length := by
      rw [htx, hw, List.length_map]
      exact length_filterMap_add_skipped _ _
    refine ⟨hacc, ?_⟩
    intro h10 h9
    have hcount : (csvParse cfg content).transactions.length = 9 := by
      rw [htx, length_filterMap_eq_countP]
      exact h9
    exact ⟨hcount, by omega⟩

/-- C3 (witness): applied at the concrete ten-row Chase-layout CSV with one
malformed row — exactly 9 transactions and exactly 1 warning. -/
theorem csv_row_corruption_containment_witness :
    (csvParse chaseBankCfg tenRowCsv).transactions.length = 9 ∧
    (csvParse chaseBankCfg tenRowCsv).warnings.length = 1 :=
  (csv_row_corruption_containment.2 chaseBankCfg tenRowCsv
    "Date,Description,Amount,Type,Balance".data tenRows
    ⟨0, 1, 2, some 3, some 4⟩ (by decide) (by decide)).2 (by decide) (by decide)

/-- C4: amount sign normalization is idempotent and convention-consistent —
re-normalizing an already-normalized value under the canonical convention is
the identity, both at the value level and after rendering the normalized
amount back to text; two files describing the same transaction under the two
opposite source conventions normalize to the same amount; stripping currency
symbols/thousands separators happens before (and commutes with) amount
parsing; and parentheses are interpreted as negative, with `$`/`,` stripped,
at the spec's concrete shapes. -/
theorem amount_sign_normalization :
    (∀ (conv : SignConvention) (v : Int),
      applySignConvention .debitNegative (applySignConvention conv v) =
        applySignConvention conv v) ∧
    (∀ v : Int, normalizeAmount .debitNegative (renderCents v) = some v) ∧
    (∀ v : Int, normalizeAmount .debitNegative (renderCents v) =
      normalizeAmount .debitPositive (renderCents (-v))) ∧
    (∀ (conv : SignConvention) (s : Chars),
      normalizeAmount conv (stripAmountChars s) = normalizeAmount conv s) ∧
    parseAmountRaw "(5.75)".data = some (-575) ∧
    parseAmountRaw "$1,234.56".data = some 123456 := by
  refine ⟨?_, ?_, ?_, ?_, by decide, by decide⟩
  · intro conv v
    rfl
  · intro v
    simp [normalizeAmount, parseAmountRaw_renderCents, applySignConvention]
  · intro v
    simp [normalizeAmount, parseAmountRaw_renderCents, applySignConvention]
  · intro conv s
    simp only [normalizeAmount, parseAmountRaw, strip_idem]

end FinanceGPT
